import Mathlib

/-!
Verification of the logfire telemetry core against its specification.

The repository ships `logfire/_config.py` together with the test suite; the
modules implementing the span lifecycle, the attribute encoder, the OTLP
session and the fallback exporter are referenced by the tests
(`tests/test_logfire.py`, `tests/exporters/test_otlp_session.py`) but their
sources are not present.  Those components are therefore modelled from the
specification, with the concrete behaviours pinned down by the expected
values recorded in the test suite.  `LogfireCredentials` is embedded
directly from `logfire/_config.py`.
-/

namespace Logfire

/-! ## Attribute keys (from `logfire._constants`, as imported by the tests) -/

def ATTRIBUTES_MESSAGE_KEY : String := "logfire.msg"

def ATTRIBUTES_MESSAGE_TEMPLATE_KEY : String := "logfire.msg_template"

def ATTRIBUTES_SPAN_TYPE_KEY : String := "logfire.span_type"

def ATTRIBUTES_LOG_LEVEL_KEY : String := "logfire.level"

def ATTRIBUTES_TAGS_KEY : String := "logfire.tags"

def NULL_ARGS_KEY : String := "logfire.null_args"

def ATTRIBUTES_START_PARENT_ID_KEY : String := "logfire.start_parent_id"

/-! ## Wire attribute values

Modelled from the spec: attribute values on the wire are restricted to
primitives; sequences of strings appear for `logfire.tags` and
`logfire.null_args` (the tests show tuples of strings there). -/

inductive AttrValue where
  | str (s : String)
  | int (n : Int)
  | bool (b : Bool)
  | strList (xs : List String)
  deriving DecidableEq, Repr

abbrev Attrs := List (String × AttrValue)

/-- Ordered lookup in an attribute map (first binding wins). -/
def attrGet (k : String) : Attrs → Option AttrValue
  | [] => Option.none
  | (k2, v) :: rest => if k = k2 then some v else attrGet k rest

/-! ## Python values passed as named arguments

Modelled from the spec: the attribute encoder receives free-form named
values; primitives are string, int, bool; `None` is special-cased; any
other value (dataclass instances, sequences) is non-primitive.  The
mutually inductive lists keep recursion structural. -/

mutual
inductive PyValue where
  | str (s : String)
  | int (n : Int)
  | bool (b : Bool)
  | pynone
  | dataclass (cls : String) (fields : PyFields)
  | pylist (xs : PyList)
  deriving DecidableEq
inductive PyFields where
  | nil
  | cons (name : String) (v : PyValue) (rest : PyFields)
  deriving DecidableEq
inductive PyList where
  | nil
  | cons (v : PyValue) (rest : PyList)
  deriving DecidableEq
end

/-- Primitive values are stored in the attribute map as-is. -/
def PyValue.isPrim : PyValue → Bool
  | .str _ => true
  | .int _ => true
  | .bool _ => true
  | _ => false

/-! Display form of a value, used when rendering message templates.
Modelled from the spec: `None` renders as the literal text `null`; other
values use their default textual representation (the tests show
`Foo(x=1, y=2)` for a dataclass and `[Foo(x=1, y=2)]` for a list). -/

mutual
def displayValue : PyValue → String
  | .str s => s
  | .int n => toString n
  | .bool b => if b then "True" else "False"
  | .pynone => "null"
  | .dataclass c fs => c ++ "(" ++ String.intercalate ", " (displayFields fs) ++ ")"
  | .pylist xs => "[" ++ String.intercalate ", " (displayList xs) ++ "]"
def displayFields : PyFields → List String
  | .nil => []
  | .cons n v rest => (n ++ "=" ++ displayValue v) :: displayFields rest
def displayList : PyList → List String
  | .nil => []
  | .cons v rest => displayValue v :: displayList rest
end

/-! ## JSON documents and their serialization

Modelled from the spec: non-primitive inputs are pre-flattened to a JSON
string under a sibling key `<name>__JSON`.  The serializer uses the compact
separators seen in the test suite. -/

mutual
inductive Json where
  | str (s : String)
  | int (n : Int)
  | bool (b : Bool)
  | null
  | arr (xs : JsonList)
  | obj (fields : JsonFields)
  deriving DecidableEq
inductive JsonFields where
  | nil
  | cons (k : String) (v : Json) (rest : JsonFields)
  deriving DecidableEq
inductive JsonList where
  | nil
  | cons (v : Json) (rest : JsonList)
  deriving DecidableEq
end

def Json.isObj : Json → Bool
  | .obj _ => true
  | _ => false

def Json.isArr : Json → Bool
  | .arr _ => true
  | _ => false

mutual
def renderJson : Json → String
  | .str s => "\"" ++ s ++ "\""
  | .int n => toString n
  | .bool b => if b then "true" else "false"
  | .null => "null"
  | .arr xs => "[" ++ String.intercalate "," (renderJsonList xs) ++ "]"
  | .obj fs => "\x7b" ++ String.intercalate "," (renderJsonFields fs) ++ "\x7d"
def renderJsonFields : JsonFields → List String
  | .nil => []
  | .cons k v rest => ("\"" ++ k ++ "\":" ++ renderJson v) :: renderJsonFields rest
def renderJsonList : JsonList → List String
  | .nil => []
  | .cons v rest => renderJson v :: renderJsonList rest
end

/-! Tagged JSON encoding of a Python value.
Modelled from the spec and `test_json_args`: a dataclass encodes to
`obj [$__datatype__, data, cls]`; a sequence encodes to a JSON array of
its elements' encodings; primitives encode directly. -/

mutual
def jsonEncode : PyValue → Json
  | .str s => .str s
  | .int n => .int n
  | .bool b => .bool b
  | .pynone => .null
  | .dataclass c fs =>
      .obj (.cons "$__datatype__" (.str "dataclass")
        (.cons "data" (.obj (jsonEncodeFields fs))
          (.cons "cls" (.str c) .nil)))
  | .pylist xs => .arr (jsonEncodeList xs)
def jsonEncodeFields : PyFields → JsonFields
  | .nil => .nil
  | .cons n v rest => .cons n (jsonEncode v) (jsonEncodeFields rest)
def jsonEncodeList : PyList → JsonList
  | .nil => .nil
  | .cons v rest => .cons (jsonEncode v) (jsonEncodeList rest)
end

/-! ## Message templates

Modelled from the spec: a template is literal text with placeholders
`{x}` (rendering the display form of `x`) and `{x=}` (rendering
`x=<value>`).  A placeholder naming an unbound value fails with a
`TemplateArgumentError` identifying the missing name. -/

inductive TemplatePart where
  | lit (s : String)
  | field (name : String) (eq : Bool)
  deriving DecidableEq

structure TemplateArgumentError where
  missingName : String
  deriving DecidableEq

def lbraceChar : Char := Char.ofNat 123

def rbraceChar : Char := Char.ofNat 125

/-- Build a placeholder part from the reversed accumulated characters of a
placeholder body; a trailing `=` selects the `x=<value>` rendering. -/
def mkField (fldRev : List Char) : TemplatePart :=
  match fldRev with
  | [] => .field "" false
  | c :: rest =>
      if c = '=' then .field (String.mk rest.reverse) true
      else .field (String.mk fldRev.reverse) false

/-- Template scanner: `lit` accumulates literal characters (reversed) and
`fld` is `some` of the reversed placeholder body while inside braces.  An
unterminated placeholder is kept as literal text. -/
def parseAux (lit : List Char) (fld : Option (List Char)) : List Char → List TemplatePart
  | [] =>
      match fld with
      | Option.none => if lit = [] then [] else [.lit (String.mk lit.reverse)]
      | some f => [.lit (String.mk ((f ++ lbraceChar :: lit).reverse))]
  | c :: rest =>
      match fld with
      | Option.none =>
          if c = lbraceChar then
            (if lit = [] then [] else [.lit (String.mk lit.reverse)]) ++ parseAux [] (some []) rest
          else parseAux (c :: lit) Option.none rest
      | some f =>
          if c = rbraceChar then mkField f :: parseAux [] Option.none rest
          else parseAux lit (some (c :: f)) rest

def parseTemplate (tmpl : String) : List TemplatePart :=
  parseAux [] Option.none tmpl.toList

/-- Names of the placeholder parts, in order. -/
def partsFields (parts : List TemplatePart) : List String :=
  parts.filterMap fun p =>
    match p with
    | .field n _ => some n
    | .lit _ => Option.none

/-- Names of the placeholders occurring in a template, in order. -/
def templateFields (tmpl : String) : List String :=
  partsFields (parseTemplate tmpl)

/-- Ordered lookup of a named value (Python kwargs have unique names). -/
def lookupVal (x : String) : List (String × PyValue) → Option PyValue
  | [] => Option.none
  | (k, v) :: rest => if x = k then some v else lookupVal x rest

/-- Render the parsed template against the named values; fails on the first
placeholder whose name is unbound. -/
def renderParts (values : List (String × PyValue)) : List TemplatePart → Except TemplateArgumentError String
  | [] => .ok ""
  | .lit s :: rest => (renderParts values rest).map (fun t => s ++ t)
  | .field x eq :: rest =>
      match lookupVal x values with
      | Option.none => .error ⟨x⟩
      | some v =>
          (renderParts values rest).map
            (fun t => (if eq then x ++ "=" else "") ++ displayValue v ++ t)

/-- The message half of the attribute encoder. -/
def formatMessage (tmpl : String) (values : List (String × PyValue)) : Except TemplateArgumentError String :=
  renderParts values (parseTemplate tmpl)

/-! ## The attribute map half of the encoder

Modelled from the spec: primitives are stored as-is; a `None` value is not
stored, its name goes to the ordered `logfire.null_args` list; any other
value is JSON-encoded and stored under `<name>__JSON`. -/

/-- Names of the `None`-valued arguments, in argument order. -/
def nullNames : List (String × PyValue) → List String
  | [] => []
  | (k, .pynone) :: rest => k :: nullNames rest
  | _ :: rest => nullNames rest

/-- The per-argument attribute bindings, in argument order. -/
def encodedAttrs : List (String × PyValue) → Attrs
  | [] => []
  | (k, v) :: rest =>
      match v with
      | .pynone => encodedAttrs rest
      | .str s => (k, .str s) :: encodedAttrs rest
      | .int n => (k, .int n) :: encodedAttrs rest
      | .bool b => (k, .bool b) :: encodedAttrs rest
      | v => (k ++ "__JSON", .str (renderJson (jsonEncode v))) :: encodedAttrs rest

/-- User-supplied part of the attribute map: encoded arguments followed by
the `logfire.null_args` list when any argument was `None`. -/
def userAttrs (values : List (String × PyValue)) : Attrs :=
  encodedAttrs values ++
    (if nullNames values = [] then [] else [(NULL_ARGS_KEY, .strList (nullNames values))])

/-! ## Span lifecycle manager

Modelled from the spec: a span-producing call allocates a real id R
parented to the current active span, immediately emits a shadow record
(kind `start_span`, its own fresh id, parent R, start==end, name suffixed
" (start)", attribute `logfire.start_parent_id` holding the previous
active id as a decimal string or "0" at root), pushes R as active, and on
scope exit emits the real record (kind `span`) and restores the previous
active value.  A log call emits a single `log` record with start==end.
Ids are drawn from an incrementing generator and timestamps from an
incrementing clock, as with `IncrementalIdGenerator` and `TimeGenerator`
in `logfire.testing` used by the tests. -/

inductive SpanType where
  | span
  | startSpan
  | log
  deriving DecidableEq, Repr

structure SpanRecord where
  name : String
  spanId : Nat
  parentId : Option Nat
  startTime : Nat
  endTime : Nat
  attributes : Attrs
  spanType : SpanType
  deriving DecidableEq, Repr

/-- A tag handle: `.tags(*names)` derives a new immutable handle whose tag
list is the parent handle's list concatenated with the new names, in call
order, duplicates allowed. -/
structure Handle where
  tagList : List String
  deriving DecidableEq, Repr

def Handle.tags (h : Handle) (names : List String) : Handle :=
  ⟨h.tagList ++ names⟩

/-- The default module-level handle carries no tags. -/
def Handle.default : Handle := ⟨[]⟩

/-- The `logfire.tags` attribute: present exactly when the handle's tag
list is non-empty. -/
def tagsAttr (h : Handle) : Attrs :=
  if h.tagList = [] then [] else [(ATTRIBUTES_TAGS_KEY, .strList h.tagList)]

/-- A span that has been started (shadow emitted) but not yet ended. -/
structure OpenSpan where
  spanId : Nat
  name : String
  parentId : Option Nat
  startTime : Nat
  attributes : Attrs
  deriving DecidableEq, Repr

structure TraceState where
  nextId : Nat
  clock : Nat
  activeStack : List OpenSpan
  records : List SpanRecord
  deriving DecidableEq, Repr

def initState : TraceState := ⟨1, 1, [], []⟩

/-- Decimal string of the previous active span id, or "0" at root. -/
def startParentIdStr (st : TraceState) : String :=
  match st.activeStack.head? with
  | some o => toString o.spanId
  | Option.none => "0"

/-- Attributes shared by the shadow and the real record of one span call. -/
def baseSpanAttrs (h : Handle) (tmpl msg : String) (values : List (String × PyValue)) : Attrs :=
  userAttrs values ++ tagsAttr h ++
    [(ATTRIBUTES_MESSAGE_TEMPLATE_KEY, .str tmpl), (ATTRIBUTES_MESSAGE_KEY, .str msg)]

/-- The shadow record emitted immediately at span entry: its own fresh id,
parented to the real span's id, start==end, name suffixed " (start)". -/
def shadowRecord (h : Handle) (tmpl : String) (spanName : Option String) (msg : String)
    (values : List (String × PyValue)) (st : TraceState) : SpanRecord :=
  { name := (spanName.getD tmpl) ++ " (start)"
    spanId := st.nextId + 1
    parentId := some st.nextId
    startTime := st.clock
    endTime := st.clock
    attributes := baseSpanAttrs h tmpl msg values ++
      [(ATTRIBUTES_SPAN_TYPE_KEY, .str "start_span"),
       (ATTRIBUTES_START_PARENT_ID_KEY, .str (startParentIdStr st))]
    spanType := .startSpan }

/-- The real span, opened and pushed as the new active value. -/
def openedSpan (h : Handle) (tmpl : String) (spanName : Option String) (msg : String)
    (values : List (String × PyValue)) (st : TraceState) : OpenSpan :=
  { spanId := st.nextId
    name := spanName.getD tmpl
    parentId := st.activeStack.head?.map (·.spanId)
    startTime := st.clock
    attributes := baseSpanAttrs h tmpl msg values }

/-- The state after span entry: ids advanced, clock ticked, real span
pushed as active, shadow record emitted. -/
def afterStart (h : Handle) (tmpl : String) (spanName : Option String) (msg : String)
    (values : List (String × PyValue)) (st : TraceState) : TraceState :=
  { nextId := st.nextId + 2
    clock := st.clock + 1
    activeStack := openedSpan h tmpl spanName msg values st :: st.activeStack
    records := st.records ++ [shadowRecord h tmpl spanName msg values st] }

/-- Entry phase of a span-producing call: allocate the real id, emit the
shadow record, push the real span as active. -/
def startSpan (h : Handle) (tmpl : String) (spanName : Option String)
    (values : List (String × PyValue)) (st : TraceState) :
    Except TemplateArgumentError TraceState :=
  match formatMessage tmpl values with
  | .error e => .error e
  | .ok msg => .ok (afterStart h tmpl spanName msg values st)

/-- The real record emitted at scope exit. -/
def closeRecord (o : OpenSpan) (endTime : Nat) : SpanRecord :=
  { name := o.name, spanId := o.spanId, parentId := o.parentId,
    startTime := o.startTime, endTime := endTime,
    attributes := o.attributes ++ [(ATTRIBUTES_SPAN_TYPE_KEY, .str "span")],
    spanType := .span }

/-- Exit phase: finalize the innermost open span, emit the real record and
restore the previous active value. -/
def endSpan (st : TraceState) : TraceState :=
  match st.activeStack with
  | [] => st
  | o :: rest =>
      { st with clock := st.clock + 1, activeStack := rest,
                records := st.records ++ [closeRecord o st.clock] }

/-- A full span-producing call with an empty body: entry immediately
followed by scope exit. -/
def spanCall (h : Handle) (tmpl : String) (spanName : Option String)
    (values : List (String × PyValue)) (st : TraceState) :
    Except TemplateArgumentError TraceState :=
  (startSpan h tmpl spanName values st).map endSpan

/-- The single record emitted by a one-shot log call. -/
def logRecord (h : Handle) (level tmpl msg : String)
    (values : List (String × PyValue)) (st : TraceState) : SpanRecord :=
  { name := msg
    spanId := st.nextId
    parentId := st.activeStack.head?.map (·.spanId)
    startTime := st.clock
    endTime := st.clock
    attributes :=
      [(ATTRIBUTES_SPAN_TYPE_KEY, .str "log"),
       (ATTRIBUTES_LOG_LEVEL_KEY, .str level),
       (ATTRIBUTES_MESSAGE_TEMPLATE_KEY, .str tmpl),
       (ATTRIBUTES_MESSAGE_KEY, .str msg)] ++ userAttrs values ++ tagsAttr h
    spanType := .log }

/-- A one-shot log call: emits a single `log` record with start==end. -/
def logCall (h : Handle) (level : String) (tmpl : String)
    (values : List (String × PyValue)) (st : TraceState) :
    Except TemplateArgumentError TraceState :=
  match formatMessage tmpl values with
  | .error e => .error e
  | .ok msg =>
      .ok { st with nextId := st.nextId + 1, clock := st.clock + 1,
                    records := st.records ++ [logRecord h level tmpl msg values st] }

/-! ## Resilient export chain

Modelled from the spec: the fallback exporter wraps the primary; on any
primary failure (size-limit or transport error) it appends the batch to a
local durable store and reports success upstream.  The size-bounded
transport measures outgoing bodies, incrementally for streamed bodies,
and fails with the documented error text (`FallbackSpanExporter`,
`OTLPExporterHttpSession`; only their tests and their wiring in
`LogfireConfig.initialize` are in the sources). -/

inductive ExportError where
  | bodyTooLarge (msg : String)
  | transport (msg : String)
  deriving DecidableEq, Repr

inductive ExportResult where
  | success
  | failure
  deriving DecidableEq, Repr

/-- The append-only durable store of batches that failed primary export. -/
structure FallbackStore where
  batches : List (List SpanRecord)
  deriving DecidableEq

/-- Export through the fallback wrapper: on primary success the store is
untouched; on any primary failure the batch is appended to the store.
Either way the caller is told the export succeeded. -/
def fallbackExport (primary : List SpanRecord → Except ExportError Unit)
    (store : FallbackStore) (batch : List SpanRecord) :
    FallbackStore × ExportResult :=
  match primary batch with
  | .ok _ => (store, .success)
  | .error _ => (⟨store.batches ++ [batch]⟩, .success)

/-! ## Size-bounded transport -/

/-- An outgoing request body: a buffered payload of a known byte size, or
a streamed body given by the byte lengths of its chunks. -/
inductive RequestBody where
  | buffered (size : Nat)
  | streamed (chunks : List Nat)
  deriving DecidableEq, Repr

/-- The documented error text. -/
def bodyTooLargeMsg (size maxSize : Nat) : String :=
  "Request body is too large (" ++ toString size ++
    " bytes), must be less than " ++ toString maxSize ++ " bytes."

def checkBodySize (maxSize size : Nat) : Except String Unit :=
  if maxSize ≤ size then .error (bodyTooLargeMsg size maxSize) else .ok ()

/-- Consume a streamed body, summing chunk lengths incrementally and
checking the running total after each chunk. -/
def consumeStream (maxSize : Nat) : Nat → List Nat → Except String Nat
  | total, [] => .ok total
  | total, c :: rest =>
      match checkBodySize maxSize (total + c) with
      | .error e => .error e
      | .ok _ => consumeStream maxSize (total + c) rest

/-- Posting on a session with a body-size limit: the body is measured (and,
for streams, consumed incrementally) before anything reaches the network. -/
def sessionPost (maxSize : Nat) (body : RequestBody) : Except String Unit :=
  match body with
  | .buffered n => checkBodySize maxSize n
  | .streamed cs => (consumeStream maxSize 0 cs).map (fun _ => ())

/-- The first running total of chunk lengths to reach the limit, if any. -/
def firstCross (maxSize : Nat) : Nat → List Nat → Option Nat
  | _, [] => Option.none
  | total, c :: rest =>
      if maxSize ≤ total + c then some (total + c) else firstCross maxSize (total + c) rest

/-! ## Exception capture

Modelled from the spec: on exceptional scope exit the
`exception.logfire.trace` blob holds `stacks`, walking the error's cause
chain outer to inner; each output frame carries only the static source
location (filename, lineno, name, line) with `locals` always null, even
though the live frames carry runtime values. -/

/-- A live stack frame of the propagating error, including its runtime
local variables. -/
structure RawFrame where
  filename : String
  lineno : Nat
  funcName : String
  line : String
  frameLocals : List (String × String)
  deriving DecidableEq, Repr

/-- A frame as serialized into `exception.logfire.trace`. -/
structure OutFrame where
  filename : String
  lineno : Nat
  funcName : String
  line : String
  outLocals : Option (List (String × String))
  deriving DecidableEq, Repr

/-- Serialization keeps only the static source location and always writes
a null `locals` field. -/
def staticFrame (f : RawFrame) : OutFrame :=
  { filename := f.filename, lineno := f.lineno, funcName := f.funcName,
    line := f.line, outLocals := Option.none }

mutual
/-- A live Python exception: type, message, optional syntax-error payload,
traceback frames, and an optional cause. -/
inductive PyExc where
  | mk (excType : String) (excValue : String) (synErr : Option String)
      (frames : List RawFrame) (cause : CauseLink)
  deriving DecidableEq
inductive CauseLink where
  | noCause
  | causedBy (e : PyExc)
  deriving DecidableEq
end

def PyExc.headType : PyExc → String
  | .mk t _ _ _ _ => t

def PyExc.headValue : PyExc → String
  | .mk _ v _ _ _ => v

def PyExc.headFrames : PyExc → List RawFrame
  | .mk _ _ _ fs _ => fs

/-- One entry of the `stacks` list in `exception.logfire.trace`. -/
structure StackInfo where
  excType : String
  excValue : String
  synErr : Option String
  isCause : Bool
  frames : List OutFrame
  deriving DecidableEq, Repr

mutual
/-- Serialize an error and its cause chain, outer to inner; `isC` records
whether this entry is a cause of the one before it. -/
def buildStacks (isC : Bool) : PyExc → List StackInfo
  | .mk t v s fs c =>
      { excType := t, excValue := v, synErr := s, isCause := isC,
        frames := fs.map staticFrame } :: buildStacksCause c
def buildStacksCause : CauseLink → List StackInfo
  | .noCause => []
  | .causedBy e => buildStacks true e
end

/-- The `stacks` list of the `exception.logfire.trace` attribute. -/
def exceptionTrace (e : PyExc) : List StackInfo :=
  buildStacks false e

mutual
/-- The cause chain of an error, outermost first. -/
def causeChain : PyExc → List PyExc
  | .mk t v s fs c => PyExc.mk t v s fs c :: causeChainLink c
def causeChainLink : CauseLink → List PyExc
  | .noCause => []
  | .causedBy e => causeChain e
end

/-! ## Credentials (embedded from `logfire/_config.py`)

`LogfireCredentials.write_creds_file` serializes `dataclasses.asdict(self)`
with `json.dump` to `<creds_dir>/logfire_credentials.json`;
`load_creds_file` reads the file back with `json.load` and rebuilds the
dataclass with `cls(**data)`.  The file system is modelled at the parsed
JSON-object level (`json.dump` followed by `json.load` is the identity on
string-valued objects). -/

def CREDENTIALS_FILENAME : String := "logfire_credentials.json"

/-- The four fields, all strings as enforced by `__post_init__`. -/
structure LogfireCredentials where
  token : String
  project_name : String
  dashboard_url : String
  logfire_api_url : String
  deriving DecidableEq, Repr

/-- A credentials file's parsed JSON object: string keys to string values. -/
abbrev CredsJson := List (String × String)

/-- Paths to parsed file contents; a write prepends, a read takes the
first match, so rewriting a path overwrites it. -/
abbrev FileSystem := List (String × CredsJson)

def fsRead (path : String) : FileSystem → Option CredsJson
  | [] => Option.none
  | (p, d) :: rest => if path = p then some d else fsRead path rest

def fsWrite (path : String) (content : CredsJson) (fs : FileSystem) : FileSystem :=
  (path, content) :: fs

/-- Path of the credentials file (`_get_creds_file`):
`creds_dir / CREDENTIALS_FILENAME`. -/
def credsFilePath (creds_dir : String) : String :=
  creds_dir ++ "/" ++ CREDENTIALS_FILENAME

/-- The dataclass as a JSON object (`dataclasses.asdict`). -/
def LogfireCredentials.asdict (c : LogfireCredentials) : CredsJson :=
  [("token", c.token), ("project_name", c.project_name),
   ("dashboard_url", c.dashboard_url), ("logfire_api_url", c.logfire_api_url)]

/-- Writing the credentials file (`write_creds_file`): dump the dataclass as
JSON at the credentials path. -/
def LogfireCredentials.write_creds_file (c : LogfireCredentials)
    (creds_dir : String) (fs : FileSystem) : FileSystem :=
  fsWrite (credsFilePath creds_dir) c.asdict fs

def lookupStr (x : String) : CredsJson → Option String
  | [] => Option.none
  | (k, v) :: rest => if x = k then some v else lookupStr x rest

/-- Rebuilding the dataclass, Python `cls(**data)`: succeeds exactly when
the object binds each of the four
dataclass fields once and nothing else; otherwise Python raises a
`TypeError`, which `load_creds_file` turns into a config error. -/
def credsFromDict (d : CredsJson) : Option LogfireCredentials :=
  match lookupStr "token" d, lookupStr "project_name" d,
        lookupStr "dashboard_url" d, lookupStr "logfire_api_url" d with
  | some t, some p, some u, some a =>
      if d.length = 4 ∧ (d.map Prod.fst).Nodup then some ⟨t, p, u, a⟩ else Option.none
  | _, _, _, _ => Option.none

/-- Outcome of `load_creds_file`: `None` when the file does not exist, a
`LogfireConfigError` when it exists but is invalid, or the credentials. -/
inductive LoadResult where
  | missing
  | invalid (msg : String)
  | loaded (creds : LogfireCredentials)
  deriving DecidableEq, Repr

/-- Loading the credentials file (`load_creds_file`): read the file if it
exists and rebuild
the dataclass from it. -/
def LogfireCredentials.load_creds_file (creds_dir : String) (fs : FileSystem) : LoadResult :=
  match fsRead (credsFilePath creds_dir) fs with
  | Option.none => .missing
  | some d =>
      match credsFromDict d with
      | some c => .loaded c
      | Option.none => .invalid "Invalid credentials file"

/-! ## Concrete values from `test_json_args` -/

/-- The dataclass instance `Foo(1, 2)` from the test suite. -/
def fooValue : PyValue := .dataclass "Foo" (.cons "x" (.int 1) (.cons "y" (.int 2) .nil))

/-- The list `[Foo(1, 2)]` from the test suite. -/
def foosValue : PyValue := .pylist (.cons fooValue .nil)

/-- Pointwise match between a serialized stack entry and a live error:
the type, message and syntax payload are copied, and the frames are
exactly the static projections of the live frames. -/
def TracePaired (s : StackInfo) (ex : PyExc) : Prop :=
  s.excType = ex.headType ∧ s.excValue = ex.headValue ∧
  s.frames = ex.headFrames.map staticFrame

/-! # Theorems -/

/-! ## Attribute-map lookup helpers -/

theorem attrGet_append_none {k : String} {a : Attrs} (b : Attrs)
    (h : attrGet k a = Option.none) : attrGet k (a ++ b) = attrGet k b := by
  induction a with
  | nil => rfl
  | cons p rest ih =>
      obtain ⟨k2, v⟩ := p
      by_cases hk : k = k2
      · simp [attrGet, hk] at h
      · simp only [attrGet, hk, if_false, List.cons_append] at h ⊢
        exact ih h

theorem attrGet_append_some {k : String} {a : Attrs} {v : AttrValue} (b : Attrs)
    (h : attrGet k a = some v) : attrGet k (a ++ b) = some v := by
  induction a with
  | nil => simp [attrGet] at h
  | cons p rest ih =>
      obtain ⟨k2, w⟩ := p
      by_cases hk : k = k2
      · simp only [attrGet, hk, if_true, List.cons_append] at h ⊢
        simpa [attrGet] using h
      · simp only [attrGet, hk, if_false, List.cons_append] at h ⊢
        exact ih h

theorem attrGet_cons_ne {k k2 : String} (v : AttrValue) (rest : Attrs) (h : k ≠ k2) :
    attrGet k ((k2, v) :: rest) = attrGet k rest := by
  simp [attrGet, h]

theorem attrGet_cons_self (k : String) (v : AttrValue) (rest : Attrs) :
    attrGet k ((k, v) :: rest) = some v := by
  simp [attrGet]

theorem attrGet_tagsAttr_ne {k : String} (h : Handle) (hk : k ≠ ATTRIBUTES_TAGS_KEY) :
    attrGet k (tagsAttr h) = Option.none := by
  unfold tagsAttr
  by_cases ht : h.tagList = []
  · simp [ht, attrGet]
  · simp [ht, attrGet, hk]

theorem attrGet_tagsAttr_self (h : Handle) :
    attrGet ATTRIBUTES_TAGS_KEY (tagsAttr h) =
      (if h.tagList = [] then Option.none else some (.strList h.tagList)) := by
  unfold tagsAttr
  by_cases ht : h.tagList = []
  · simp [ht, attrGet]
  · simp [ht, attrGet]

/-! ## C10 -/

/-- C10: for every credentials value (all four fields strings, as the
types enforce) and every directory, `write_creds_file` followed by
`load_creds_file` on the same directory returns the original credentials:
the write-then-read round trip is the identity. -/
theorem creds_write_load_roundtrip (c : LogfireCredentials) (creds_dir : String)
    (fs : FileSystem) :
    LogfireCredentials.load_creds_file creds_dir (c.write_creds_file creds_dir fs) =
      .loaded c := by
  simp [LogfireCredentials.load_creds_file, LogfireCredentials.write_creds_file,
    fsWrite, fsRead, credsFromDict, lookupStr, LogfireCredentials.asdict]

/-! ## C3 -/

/-- C3: whenever the primary exporter fails on a batch, with either a
size-limit or a transport error, the fallback exporter appends that batch
to the durable store, keeping everything already stored, and the export
call still reports success to its caller: no batch is dropped. -/
theorem fallback_preserves_failed_batches
    (primary : List SpanRecord → Except ExportError Unit)
    (store : FallbackStore) (batch : List SpanRecord) (e : ExportError)
    (hfail : primary batch = .error e) :
    (fallbackExport primary store batch).1.batches = store.batches ++ [batch] ∧
    (fallbackExport primary store batch).2 = .success := by
  simp [fallbackExport, hfail]

/-- Witness for C3: a transport failure on a one-record batch lands the
batch in the store and still reports success. -/
theorem fallback_preserves_failed_batches_witness :
    (fallbackExport (fun _ => .error (.transport "connection refused"))
        ⟨[]⟩ [⟨"r", 1, Option.none, 1, 2, [], .span⟩]).1.batches =
      [] ++ [[⟨"r", 1, Option.none, 1, 2, [], .span⟩]] ∧
    (fallbackExport (fun _ => .error (.transport "connection refused"))
        ⟨[]⟩ [⟨"r", 1, Option.none, 1, 2, [], .span⟩]).2 = .success :=
  fallback_preserves_failed_batches _ _ _ (.transport "connection refused") rfl

/-! ## C4 -/

/-- Consuming a streamed body whose total reaches the limit fails at the
first running total that reaches it, with the documented error text; the
observed size is an incremental sum of chunk lengths. -/
theorem consumeStream_cross (N : Nat) :
    ∀ (chunks : List Nat) (total : Nat), total < N → N ≤ total + chunks.sum →
    ∃ observed, firstCross N total chunks = some observed ∧ N ≤ observed ∧
      (∃ p q, chunks = p ++ q ∧ total + p.sum = observed) ∧
      consumeStream N total chunks = .error (bodyTooLargeMsg observed N) := by
  intro chunks
  induction chunks with
  | nil =>
      intro total h1 h2
      simp only [List.sum_nil, Nat.add_zero] at h2
      omega
  | cons c rest ih =>
      intro total h1 h2
      by_cases hc : N ≤ total + c
      · refine ⟨total + c, ?_, hc, ⟨[c], rest, rfl, by simp⟩, ?_⟩
        · simp [firstCross, hc]
        · simp [consumeStream, checkBodySize, hc]
      · have hc2 : total + c < N := Nat.lt_of_not_le hc
        have h3 : N ≤ (total + c) + rest.sum := by
          simp only [List.sum_cons] at h2
          omega
        obtain ⟨obs, hfc, hobs, ⟨p, q, hpq, hsum⟩, hcs⟩ := ih (total + c) hc2 h3
        refine ⟨obs, ?_, hobs, ⟨c :: p, q, by simp [hpq], ?_⟩, ?_⟩
        · simp [firstCross, hc, hfc]
        · simp only [List.sum_cons]
          omega
        · simp [consumeStream, checkBodySize, hc, hcs]

/-- C4: with a positive body-size limit N, a buffered request body of size
at least N is rejected with exactly the documented error text reporting
its size, and a streamed body whose chunk lengths sum to at least N is
rejected with the error text reporting the incremental sum of chunk
lengths at the point of rejection.  In particular, with limit 10 a 10-byte
buffered payload is rejected reporting 10 bytes, and a streamed payload of
3-byte chunks is rejected reporting 12 bytes. -/
theorem body_size_limit_rejects (N : Nat) (hN : 0 < N) :
    (∀ n, N ≤ n → sessionPost N (.buffered n) = .error (bodyTooLargeMsg n N)) ∧
    (∀ chunks : List Nat, N ≤ chunks.sum →
      ∃ observed, N ≤ observed ∧ (∃ p q, chunks = p ++ q ∧ p.sum = observed) ∧
        sessionPost N (.streamed chunks) = .error (bodyTooLargeMsg observed N)) ∧
    sessionPost 10 (.buffered 10) =
      .error "Request body is too large (10 bytes), must be less than 10 bytes." ∧
    sessionPost 10 (.streamed [3, 3, 3, 3]) =
      .error "Request body is too large (12 bytes), must be less than 10 bytes." := by
  refine ⟨?_, ?_, rfl, rfl⟩
  · intro n hn
    simp [sessionPost, checkBodySize, hn]
  · intro chunks hsum
    obtain ⟨obs, hfc, hobs, ⟨p, q, hpq, hps⟩, hcs⟩ :=
      consumeStream_cross N chunks 0 hN (by simpa using hsum)
    exact ⟨obs, hobs, ⟨p, q, hpq, by omega⟩, by simp [sessionPost, hcs, Except.map]⟩

/-- Witness for C4: the limit 10 of the test suite. -/
theorem body_size_limit_rejects_witness :
    0 < 10 ∧
    ((∀ n, 10 ≤ n → sessionPost 10 (.buffered n) = .error (bodyTooLargeMsg n 10)) ∧
     (∀ chunks : List Nat, 10 ≤ chunks.sum →
       ∃ observed, 10 ≤ observed ∧ (∃ p q, chunks = p ++ q ∧ p.sum = observed) ∧
         sessionPost 10 (.streamed chunks) = .error (bodyTooLargeMsg observed 10)) ∧
     sessionPost 10 (.buffered 10) =
       .error "Request body is too large (10 bytes), must be less than 10 bytes." ∧
     sessionPost 10 (.streamed [3, 3, 3, 3]) =
       .error "Request body is too large (12 bytes), must be less than 10 bytes.") :=
  ⟨by decide, body_size_limit_rejects 10 (by decide)⟩

/-! ## C1 -/

/-- C1: a span-producing call whose template formats successfully emits
exactly two records: first a start_span shadow whose start equals its end,
whose name is the real record's name suffixed " (start)" and whose parent
id is the real record's own span id, then the span record with end at
least start; a one-shot log call emits exactly one log record with start
equal to end. -/
theorem span_dual_emission_log_single
    (h : Handle) (tmpl : String) (spanName : Option String)
    (values : List (String × PyValue)) (st : TraceState) (msg : String)
    (hfmt : formatMessage tmpl values = .ok msg) :
    (∃ st' shadow real, spanCall h tmpl spanName values st = .ok st' ∧
      st'.records = st.records ++ [shadow, real] ∧
      shadow.spanType = .startSpan ∧
      shadow.startTime = shadow.endTime ∧
      shadow.name = real.name ++ " (start)" ∧
      shadow.parentId = some real.spanId ∧
      real.spanType = .span ∧
      real.startTime ≤ real.endTime) ∧
    (∀ level, ∃ st2 r, logCall h level tmpl values st = .ok st2 ∧
      st2.records = st.records ++ [r] ∧
      r.spanType = .log ∧ r.startTime = r.endTime) := by
  constructor
  · refine ⟨endSpan (afterStart h tmpl spanName msg values st),
      shadowRecord h tmpl spanName msg values st,
      closeRecord (openedSpan h tmpl spanName msg values st) (st.clock + 1),
      ?_, ?_, rfl, rfl, rfl, rfl, rfl, ?_⟩
    · simp [spanCall, startSpan, hfmt, Except.map]
    · simp [afterStart, endSpan]
    · exact Nat.le_succ _
  · intro level
    refine ⟨({ st with
               nextId := st.nextId + 1
               clock := st.clock + 1
               records := st.records ++ [logRecord h level tmpl msg values st] } : TraceState),
      logRecord h level tmpl msg values st, ?_, rfl, rfl, rfl⟩
    simp [logCall, hfmt]

/-- Witness for C1 at the inputs of `test_span_with_kwargs` and
`test_log`. -/
theorem span_dual_emission_log_single_witness :
    (∃ st' shadow real,
      spanCall Handle.default "test {name=} {number}" (some "test span")
        [("name", .str "foo"), ("number", .int 3), ("extra", .str "extra")] initState = .ok st' ∧
      st'.records = initState.records ++ [shadow, real] ∧
      shadow.spanType = .startSpan ∧
      shadow.startTime = shadow.endTime ∧
      shadow.name = real.name ++ " (start)" ∧
      shadow.parentId = some real.spanId ∧
      real.spanType = .span ∧
      real.startTime ≤ real.endTime) ∧
    (∀ level, ∃ st2 r,
      logCall Handle.default level "test {name=} {number}"
        [("name", .str "foo"), ("number", .int 3), ("extra", .str "extra")] initState = .ok st2 ∧
      st2.records = initState.records ++ [r] ∧
      r.spanType = .log ∧ r.startTime = r.endTime) :=
  span_dual_emission_log_single Handle.default "test {name=} {number}" (some "test span")
    [("name", .str "foo"), ("number", .int 3), ("extra", .str "extra")] initState
    "test name=foo 3" rfl

/-! ## C2 -/

/-- C2: on span entry the emitted shadow record is parented to the real
span's own id (the span pushed as the new active value), and its
logfire.start_parent_id attribute is the decimal string of the span id
that was active before the call, or "0" at root.  The hypothesis records
that user-supplied argument names do not shadow the reserved key, which
holds for Python keyword names since they cannot contain a dot. -/
theorem shadow_parent_and_start_parent_id
    (h : Handle) (tmpl : String) (spanName : Option String)
    (values : List (String × PyValue)) (st : TraceState) (msg : String)
    (hfmt : formatMessage tmpl values = .ok msg)
    (huser : attrGet ATTRIBUTES_START_PARENT_ID_KEY (userAttrs values) = Option.none) :
    ∃ st' shadow opened, startSpan h tmpl spanName values st = .ok st' ∧
      st'.records = st.records ++ [shadow] ∧
      st'.activeStack = opened :: st.activeStack ∧
      shadow.parentId = some opened.spanId ∧
      attrGet ATTRIBUTES_START_PARENT_ID_KEY shadow.attributes =
        some (.str (match st.activeStack.head? with
          | some o => toString o.spanId
          | Option.none => "0")) := by
  refine ⟨afterStart h tmpl spanName msg values st,
    shadowRecord h tmpl spanName msg values st,
    openedSpan h tmpl spanName msg values st, ?_, rfl, rfl, rfl, ?_⟩
  · simp [startSpan, hfmt]
  · have h1 : attrGet ATTRIBUTES_START_PARENT_ID_KEY (userAttrs values ++ tagsAttr h) =
        Option.none := by
      rw [attrGet_append_none _ huser, attrGet_tagsAttr_ne h (by decide)]
    have h2 : attrGet ATTRIBUTES_START_PARENT_ID_KEY (baseSpanAttrs h tmpl msg values) =
        Option.none := by
      unfold baseSpanAttrs
      rw [attrGet_append_none _ h1, attrGet_cons_ne _ _ (by decide),
        attrGet_cons_ne _ _ (by decide)]
      rfl
    show attrGet ATTRIBUTES_START_PARENT_ID_KEY
        (baseSpanAttrs h tmpl msg values ++
          [(ATTRIBUTES_SPAN_TYPE_KEY, .str "start_span"),
           (ATTRIBUTES_START_PARENT_ID_KEY, .str (startParentIdStr st))]) = _
    rw [attrGet_append_none _ h2, attrGet_cons_ne _ _ (by decide), attrGet_cons_self]
    unfold startParentIdStr
    cases st.activeStack.head? <;> rfl

/-- Witness for C2 under an already-active span with id 1, as in
`test_span_with_parent`: the shadow reports start_parent_id "1". -/
theorem shadow_parent_and_start_parent_id_witness :
    ∃ st' shadow opened,
      startSpan Handle.default "test {name=} {number}" (some "test child span")
        [("name", .str "foo"), ("number", .int 3)]
        ⟨3, 2, [⟨1, "test parent span", Option.none, 1, []⟩], []⟩ = .ok st' ∧
      st'.records = (⟨3, 2, [⟨1, "test parent span", Option.none, 1, []⟩], []⟩ :
          TraceState).records ++ [shadow] ∧
      st'.activeStack = opened :: (⟨3, 2, [⟨1, "test parent span", Option.none, 1, []⟩], []⟩ :
          TraceState).activeStack ∧
      shadow.parentId = some opened.spanId ∧
      attrGet ATTRIBUTES_START_PARENT_ID_KEY shadow.attributes =
        some (.str (match (⟨3, 2, [⟨1, "test parent span", Option.none, 1, []⟩], []⟩ :
            TraceState).activeStack.head? with
          | some o => toString o.spanId
          | Option.none => "0")) :=
  shadow_parent_and_start_parent_id Handle.default "test {name=} {number}"
    (some "test child span") [("name", .str "foo"), ("number", .int 3)]
    ⟨3, 2, [⟨1, "test parent span", Option.none, 1, []⟩], []⟩
    "test name=foo 3" rfl rfl

/-! ## C7 -/

theorem attrGet_baseSpanAttrs_tags (h : Handle) (tmpl msg : String)
    (values : List (String × PyValue))
    (huser : attrGet ATTRIBUTES_TAGS_KEY (userAttrs values) = Option.none) :
    attrGet ATTRIBUTES_TAGS_KEY (baseSpanAttrs h tmpl msg values) =
      (if h.tagList = [] then Option.none else some (.strList h.tagList)) := by
  unfold baseSpanAttrs
  by_cases ht : h.tagList = []
  · rw [if_pos ht, attrGet_append_none, attrGet_cons_ne _ _ (by decide),
      attrGet_cons_ne _ _ (by decide)]
    · rfl
    · rw [attrGet_append_none _ huser, attrGet_tagsAttr_self, if_pos ht]
  · rw [if_neg ht]
    apply attrGet_append_some
    rw [attrGet_append_none _ huser, attrGet_tagsAttr_self, if_neg ht]

/-- C7: chained .tags calls concatenate tag names in call order, duplicates
allowed, and every record produced through a handle (the log record, the
shadow and the real span record) carries logfire.tags equal to the full
concatenation of its chain; the attribute is absent when the handle has no
tags.  The huser hypothesis records that user argument names do not shadow
the reserved logfire.tags key, which holds for Python keyword names since
they cannot contain a dot. -/
theorem tags_concatenation
    (h : Handle) (level tmpl : String) (spanName : Option String)
    (values : List (String × PyValue)) (st : TraceState) (msg : String)
    (hfmt : formatMessage tmpl values = .ok msg)
    (huser : attrGet ATTRIBUTES_TAGS_KEY (userAttrs values) = Option.none) :
    (((Handle.default.tags ["a"]).tags ["b"]).tags ["c", "d"]).tagList =
      ["a", "b", "c", "d"] ∧
    (∀ names, (h.tags names).tagList = h.tagList ++ names) ∧
    (∃ st2 r, logCall h level tmpl values st = .ok st2 ∧
      st2.records = st.records ++ [r] ∧
      attrGet ATTRIBUTES_TAGS_KEY r.attributes =
        (if h.tagList = [] then Option.none else some (.strList h.tagList))) ∧
    (∃ st' shadow real, spanCall h tmpl spanName values st = .ok st' ∧
      st'.records = st.records ++ [shadow, real] ∧
      attrGet ATTRIBUTES_TAGS_KEY shadow.attributes =
        (if h.tagList = [] then Option.none else some (.strList h.tagList)) ∧
      attrGet ATTRIBUTES_TAGS_KEY real.attributes =
        (if h.tagList = [] then Option.none else some (.strList h.tagList))) := by
  have hlit : attrGet ATTRIBUTES_TAGS_KEY
      ([(ATTRIBUTES_SPAN_TYPE_KEY, AttrValue.str "log"),
        (ATTRIBUTES_LOG_LEVEL_KEY, AttrValue.str level),
        (ATTRIBUTES_MESSAGE_TEMPLATE_KEY, AttrValue.str tmpl),
        (ATTRIBUTES_MESSAGE_KEY, AttrValue.str msg)] ++ userAttrs values) =
      Option.none := by
    simp only [List.cons_append, List.nil_append]
    rw [attrGet_cons_ne _ _ (by decide), attrGet_cons_ne _ _ (by decide),
      attrGet_cons_ne _ _ (by decide), attrGet_cons_ne _ _ (by decide)]
    exact huser
  have hbase := attrGet_baseSpanAttrs_tags h tmpl msg values huser
  refine ⟨rfl, fun _ => rfl, ?_, ?_⟩
  · refine ⟨({ st with
               nextId := st.nextId + 1
               clock := st.clock + 1
               records := st.records ++ [logRecord h level tmpl msg values st] } : TraceState),
      logRecord h level tmpl msg values st, ?_, rfl, ?_⟩
    · simp [logCall, hfmt]
    · show attrGet ATTRIBUTES_TAGS_KEY
        (([(ATTRIBUTES_SPAN_TYPE_KEY, AttrValue.str "log"),
           (ATTRIBUTES_LOG_LEVEL_KEY, AttrValue.str level),
           (ATTRIBUTES_MESSAGE_TEMPLATE_KEY, AttrValue.str tmpl),
           (ATTRIBUTES_MESSAGE_KEY, AttrValue.str msg)] ++ userAttrs values) ++ tagsAttr h) = _
      rw [attrGet_append_none _ hlit, attrGet_tagsAttr_self]
  · refine ⟨endSpan (afterStart h tmpl spanName msg values st),
      shadowRecord h tmpl spanName msg values st,
      closeRecord (openedSpan h tmpl spanName msg values st) (st.clock + 1), ?_, ?_, ?_, ?_⟩
    · simp [spanCall, startSpan, hfmt, Except.map]
    · simp [afterStart, endSpan]
    · show attrGet ATTRIBUTES_TAGS_KEY
        (baseSpanAttrs h tmpl msg values ++
          [(ATTRIBUTES_SPAN_TYPE_KEY, .str "start_span"),
           (ATTRIBUTES_START_PARENT_ID_KEY, .str (startParentIdStr st))]) = _
      by_cases ht : h.tagList = []
      · rw [if_pos ht] at hbase ⊢
        rw [attrGet_append_none _ hbase, attrGet_cons_ne _ _ (by decide),
          attrGet_cons_ne _ _ (by decide)]
        rfl
      · rw [if_neg ht] at hbase ⊢
        exact attrGet_append_some _ hbase
    · show attrGet ATTRIBUTES_TAGS_KEY
        (baseSpanAttrs h tmpl msg values ++ [(ATTRIBUTES_SPAN_TYPE_KEY, .str "span")]) = _
      by_cases ht : h.tagList = []
      · rw [if_pos ht] at hbase ⊢
        rw [attrGet_append_none _ hbase, attrGet_cons_ne _ _ (by decide)]
        rfl
      · rw [if_neg ht] at hbase ⊢
        exact attrGet_append_some _ hbase

/-- Witness for C7 with the two-tag handle of `test_log_with_tags`. -/
theorem tags_concatenation_witness :
    (((Handle.default.tags ["a"]).tags ["b"]).tags ["c", "d"]).tagList =
      ["a", "b", "c", "d"] ∧
    (∀ names, (((Handle.default.tags ["tag1"]).tags ["tag2"]).tags names).tagList =
      ((Handle.default.tags ["tag1"]).tags ["tag2"]).tagList ++ names) ∧
    (∃ st2 r, logCall ((Handle.default.tags ["tag1"]).tags ["tag2"]) "info"
        "test {name} {number}" [("name", .str "foo"), ("number", .int 2)] initState = .ok st2 ∧
      st2.records = initState.records ++ [r] ∧
      attrGet ATTRIBUTES_TAGS_KEY r.attributes =
        (if ((Handle.default.tags ["tag1"]).tags ["tag2"]).tagList = [] then Option.none
         else some (.strList ((Handle.default.tags ["tag1"]).tags ["tag2"]).tagList))) ∧
    (∃ st' shadow real, spanCall ((Handle.default.tags ["tag1"]).tags ["tag2"])
        "test {name} {number}" (some "test span")
        [("name", .str "foo"), ("number", .int 2)] initState = .ok st' ∧
      st'.records = initState.records ++ [shadow, real] ∧
      attrGet ATTRIBUTES_TAGS_KEY shadow.attributes =
        (if ((Handle.default.tags ["tag1"]).tags ["tag2"]).tagList = [] then Option.none
         else some (.strList ((Handle.default.tags ["tag1"]).tags ["tag2"]).tagList)) ∧
      attrGet ATTRIBUTES_TAGS_KEY real.attributes =
        (if ((Handle.default.tags ["tag1"]).tags ["tag2"]).tagList = [] then Option.none
         else some (.strList ((Handle.default.tags ["tag1"]).tags ["tag2"]).tagList))) :=
  tags_concatenation ((Handle.default.tags ["tag1"]).tags ["tag2"]) "info"
    "test {name} {number}" (some "test span")
    [("name", .str "foo"), ("number", .int 2)] initState "test foo 2" rfl rfl

/-! ## C5 -/

/-- Rendering a part list that contains an unbound placeholder fails with
the error naming the first unbound placeholder. -/
theorem renderParts_missing (values : List (String × PyValue)) :
    ∀ (parts : List TemplatePart) (x : String), x ∈ partsFields parts →
      lookupVal x values = Option.none →
      ∃ y, y ∈ partsFields parts ∧ lookupVal y values = Option.none ∧
        renderParts values parts = .error ⟨y⟩ := by
  intro parts
  induction parts with
  | nil =>
      intro x hx
      simp [partsFields] at hx
  | cons p rest ih =>
      intro x hx hnb
      cases p with
      | lit s =>
          have hx2 : x ∈ partsFields rest := by simpa [partsFields] using hx
          obtain ⟨y, hy, hyn, herr⟩ := ih x hx2 hnb
          exact ⟨y, by simpa [partsFields] using hy, hyn,
            by simp [renderParts, herr, Except.map]⟩
      | field z eq =>
          cases hlz : lookupVal z values with
          | none =>
              exact ⟨z, by simp [partsFields], hlz, by simp [renderParts, hlz]⟩
          | some v =>
              have hxz : x ≠ z := by
                intro he
                rw [he, hlz] at hnb
                exact Option.noConfusion hnb
              have hx2 : x ∈ partsFields rest := by
                have hm := hx
                simp only [partsFields, List.filterMap_cons] at hm ⊢
                rcases List.mem_cons.1 hm with h1 | h1
                · exact absurd h1 hxz
                · exact h1
              obtain ⟨y, hy, hyn, herr⟩ := ih x hx2 hnb
              refine ⟨y, ?_, hyn, ?_⟩
              · simp only [partsFields, List.filterMap_cons] at hy ⊢
                exact List.mem_cons_of_mem _ hy
              · simp [renderParts, hlz, herr, Except.map]

/-- C5: a call whose message template contains a placeholder whose name is
unbound among the named values fails with a TemplateArgumentError that
identifies the (first such) missing name, and the failing calls return no
new state, so no record is emitted. -/
theorem unbound_placeholder_errors
    (tmpl : String) (values : List (String × PyValue)) (x : String)
    (hx : x ∈ templateFields tmpl) (hnb : lookupVal x values = Option.none) :
    ∃ y, y ∈ templateFields tmpl ∧ lookupVal y values = Option.none ∧
      formatMessage tmpl values = .error ⟨y⟩ ∧
      (∀ h spanName st, startSpan h tmpl spanName values st = .error ⟨y⟩) ∧
      (∀ h spanName st, spanCall h tmpl spanName values st = .error ⟨y⟩) ∧
      (∀ h level st, logCall h level tmpl values st = .error ⟨y⟩) := by
  obtain ⟨y, hy, hyn, herr⟩ := renderParts_missing values (parseTemplate tmpl) x hx hnb
  have hfmt : formatMessage tmpl values = .error ⟨y⟩ := herr
  refine ⟨y, hy, hyn, hfmt, ?_, ?_, ?_⟩
  · intro h spanName st
    simp [startSpan, hfmt]
  · intro h spanName st
    simp [spanCall, startSpan, hfmt, Except.map]
  · intro h level st
    simp [logCall, hfmt]

/-- Witness for C5 at the input of `test_span_without_kwargs`: the
template `test {name}` with no named values). -/
theorem unbound_placeholder_errors_witness :
    ∃ y, y ∈ templateFields "test {name}" ∧ lookupVal y [] = Option.none ∧
      formatMessage "test {name}" [] = .error ⟨y⟩ ∧
      (∀ h spanName st, startSpan h "test {name}" spanName [] st = .error ⟨y⟩) ∧
      (∀ h spanName st, spanCall h "test {name}" spanName [] st = .error ⟨y⟩) ∧
      (∀ h level st, logCall h level "test {name}" [] st = .error ⟨y⟩) :=
  unbound_placeholder_errors "test {name}" [] "name" (by decide) rfl

/-! ## C6 -/

/-- With unique argument names (as Python keyword arguments are), a name
determines its value. -/
theorem keyVal_unique {α : Type} {values : List (String × α)} {x : String} {v w : α}
    (hnd : (values.map Prod.fst).Nodup) (hv : (x, v) ∈ values) (hw : (x, w) ∈ values) :
    v = w := by
  induction values with
  | nil => cases hv
  | cons p rest ih =>
      rw [List.map_cons, List.nodup_cons] at hnd
      rcases List.mem_cons.1 hv with h1 | h1 <;> rcases List.mem_cons.1 hw with h2 | h2
      · rw [← h1] at h2
        exact (Prod.mk.injEq _ _ _ _ ▸ h2).2.symm
      · exact absurd (List.mem_map.2 ⟨(x, w), h2, by rw [← h1]⟩) hnd.1
      · exact absurd (List.mem_map.2 ⟨(x, v), h1, by rw [← h2]⟩) hnd.1
      · exact ih hnd.2 h1 h2

/-- A name that is either None-valued or different from `x` at every
argument, and never equal to a `__JSON`-suffixed sibling key, does not
appear in the encoded attributes under `x`. -/
theorem attrGet_encodedAttrs_none (x : String) :
    ∀ (values : List (String × PyValue)),
      (∀ p ∈ values, p.2 = PyValue.pynone ∨ x ≠ p.1) →
      (∀ p ∈ values, x ≠ p.1 ++ "__JSON") →
      attrGet x (encodedAttrs values) = Option.none := by
  intro values
  induction values with
  | nil => intro _ _; rfl
  | cons p rest ih =>
      intro h1 h2
      obtain ⟨k, v⟩ := p
      have hk := h1 (k, v) (List.mem_cons_self _ _)
      have hkj := h2 (k, v) (List.mem_cons_self _ _)
      have ih2 := ih (fun q hq => h1 q (List.mem_cons_of_mem _ hq))
        (fun q hq => h2 q (List.mem_cons_of_mem _ hq))
      cases v with
      | pynone => simpa [encodedAttrs] using ih2
      | str s =>
          have hxk : x ≠ k := by
            rcases hk with hcon | hne
            · exact absurd hcon (by simp)
            · exact hne
          simp only [encodedAttrs]
          rw [attrGet_cons_ne _ _ hxk]
          exact ih2
      | int n =>
          have hxk : x ≠ k := by
            rcases hk with hcon | hne
            · exact absurd hcon (by simp)
            · exact hne
          simp only [encodedAttrs]
          rw [attrGet_cons_ne _ _ hxk]
          exact ih2
      | bool b =>
          have hxk : x ≠ k := by
            rcases hk with hcon | hne
            · exact absurd hcon (by simp)
            · exact hne
          simp only [encodedAttrs]
          rw [attrGet_cons_ne _ _ hxk]
          exact ih2
      | dataclass c fs =>
          simp only [encodedAttrs]
          rw [attrGet_cons_ne _ _ hkj]
          exact ih2
      | pylist xs =>
          simp only [encodedAttrs]
          rw [attrGet_cons_ne _ _ hkj]
          exact ih2

/-- Every None-valued argument name appears in the null-args list. -/
theorem mem_nullNames {values : List (String × PyValue)} {x : String}
    (hx : (x, PyValue.pynone) ∈ values) : x ∈ nullNames values := by
  induction values with
  | nil => cases hx
  | cons p rest ih =>
      obtain ⟨k, v⟩ := p
      rcases List.mem_cons.1 hx with h | h
      · obtain ⟨hk, hv⟩ := Prod.mk.injEq .. ▸ h.symm
        subst hk
        subst hv
        simp [nullNames]
      · cases v <;> simp [nullNames, ih h]

/-- C6: a None-valued named argument is not stored in the attribute map;
its name is appended to the ordered logfire.null_args list attribute and
its placeholder renders as the literal text null.  The hjson and hres
hypotheses record that argument names do not collide with the reserved
`__JSON` sibling keys or the reserved logfire.null_args key, which holds
for Python keyword names.  The last two conjuncts are the concrete
instances from `test_log` and `test_span_with_kwargs`. -/
theorem null_args_encoding
    (values : List (String × PyValue)) (x : String)
    (hx : (x, PyValue.pynone) ∈ values)
    (hnd : (values.map Prod.fst).Nodup)
    (hjson : ∀ p ∈ values, x ≠ p.1 ++ "__JSON")
    (hres : attrGet NULL_ARGS_KEY (encodedAttrs values) = Option.none) :
    attrGet x (encodedAttrs values) = Option.none ∧
    x ∈ nullNames values ∧
    attrGet NULL_ARGS_KEY (userAttrs values) = some (.strList (nullNames values)) ∧
    displayValue PyValue.pynone = "null" ∧
    (logCall Handle.default "info" "test {name} {number} {none}"
        [("name", .str "foo"), ("number", .int 2), ("none", .pynone)] initState).map
        (fun s => s.records.map fun r =>
          (r.name, attrGet ATTRIBUTES_MESSAGE_KEY r.attributes,
            attrGet NULL_ARGS_KEY r.attributes, attrGet "none" r.attributes)) =
      .ok [("test foo 2 null", some (.str "test foo 2 null"),
            some (.strList ["none"]), Option.none)] ∧
    (spanCall Handle.default "test {name=} {number}" Option.none
        [("name", .str "foo"), ("number", .int 3)] initState).map
        (fun s => s.records.map fun r => attrGet ATTRIBUTES_MESSAGE_KEY r.attributes) =
      .ok [some (.str "test name=foo 3"), some (.str "test name=foo 3")] := by
  have h1 : ∀ p ∈ values, p.2 = PyValue.pynone ∨ x ≠ p.1 := by
    intro p hp
    by_cases hxp : x = p.1
    · left
      obtain ⟨k, v⟩ := p
      subst hxp
      exact keyVal_unique hnd hp hx
    · right
      exact hxp
  have hmem := mem_nullNames hx
  refine ⟨attrGet_encodedAttrs_none x values h1 hjson, hmem, ?_, rfl, rfl, rfl⟩
  unfold userAttrs
  rw [if_neg (List.ne_nil_of_mem hmem), attrGet_append_none _ hres, attrGet_cons_self]

/-- Witness for C6 at the input of `test_log`. -/
theorem null_args_encoding_witness :
    attrGet "none" (encodedAttrs
      [("name", .str "foo"), ("number", .int 2), ("none", .pynone)]) = Option.none ∧
    "none" ∈ nullNames [("name", .str "foo"), ("number", .int 2), ("none", .pynone)] ∧
    attrGet NULL_ARGS_KEY (userAttrs
        [("name", .str "foo"), ("number", .int 2), ("none", .pynone)]) =
      some (.strList (nullNames
        [("name", .str "foo"), ("number", .int 2), ("none", .pynone)])) ∧
    displayValue PyValue.pynone = "null" ∧
    (logCall Handle.default "info" "test {name} {number} {none}"
        [("name", .str "foo"), ("number", .int 2), ("none", .pynone)] initState).map
        (fun s => s.records.map fun r =>
          (r.name, attrGet ATTRIBUTES_MESSAGE_KEY r.attributes,
            attrGet NULL_ARGS_KEY r.attributes, attrGet "none" r.attributes)) =
      .ok [("test foo 2 null", some (.str "test foo 2 null"),
            some (.strList ["none"]), Option.none)] ∧
    (spanCall Handle.default "test {name=} {number}" Option.none
        [("name", .str "foo"), ("number", .int 3)] initState).map
        (fun s => s.records.map fun r => attrGet ATTRIBUTES_MESSAGE_KEY r.attributes) =
      .ok [some (.str "test name=foo 3"), some (.str "test name=foo 3")] :=
  null_args_encoding [("name", .str "foo"), ("number", .int 2), ("none", .pynone)] "none"
    (by decide) (by decide) (by decide) rfl

/-! ## C8 -/

/-- C8 counterexample: the list value `[Foo(1, 2)]` of `test_json_args` is
a non-primitive named value, yet the string stored under `foos__JSON` is
the serialization of a JSON array (as the test itself asserts), not of an
object of the form with the `$__datatype__`, `data` and `cls` keys. -/
theorem json_attr_list_not_object :
    PyValue.isPrim foosValue = false ∧
    userAttrs [("foos", foosValue)] =
      [("foos__JSON",
        .str "[\x7b\"$__datatype__\":\"dataclass\",\"data\":\x7b\"x\":1,\"y\":2\x7d,\"cls\":\"Foo\"\x7d]")] ∧
    jsonEncode foosValue = .arr (.cons (jsonEncode fooValue) .nil) ∧
    Json.isObj (jsonEncode foosValue) = false :=
  ⟨rfl, rfl, rfl, rfl⟩

/-- C8 amended: every non-primitive named value is stored under
`<name>__JSON` as the serialization of its tagged JSON encoding; a
dataclass value encodes to an object with the `$__datatype__`, `data` and
`cls` keys, while a sequence encodes to a JSON array of its elements'
encodings; the human-readable message uses the value's default textual
representation.  The last two conjuncts are the concrete instances of
`test_json_args`. -/
theorem json_attr_tagged_encoding
    (name cls : String) (fs : PyFields) (xs : PyList) (v : PyValue)
    (hnp : v.isPrim = false) (hnn : v ≠ .pynone) :
    userAttrs [(name, v)] = [(name ++ "__JSON", .str (renderJson (jsonEncode v)))] ∧
    jsonEncode (.dataclass cls fs) =
      .obj (.cons "$__datatype__" (.str "dataclass")
        (.cons "data" (.obj (jsonEncodeFields fs)) (.cons "cls" (.str cls) .nil))) ∧
    Json.isObj (jsonEncode (.dataclass cls fs)) = true ∧
    Json.isArr (jsonEncode (.pylist xs)) = true ∧
    (logCall Handle.default "info" "test message {foo=}" [("foo", fooValue)] initState).map
        (fun s => s.records.map fun r => (r.name, attrGet "foo__JSON" r.attributes)) =
      .ok [("test message foo=Foo(x=1, y=2)",
        some (.str "\x7b\"$__datatype__\":\"dataclass\",\"data\":\x7b\"x\":1,\"y\":2\x7d,\"cls\":\"Foo\"\x7d"))] ∧
    (logCall Handle.default "info" "test message {foos=}" [("foos", foosValue)] initState).map
        (fun s => s.records.map fun r => (r.name, attrGet "foos__JSON" r.attributes)) =
      .ok [("test message foos=[Foo(x=1, y=2)]",
        some (.str "[\x7b\"$__datatype__\":\"dataclass\",\"data\":\x7b\"x\":1,\"y\":2\x7d,\"cls\":\"Foo\"\x7d]"))] := by
  refine ⟨?_, rfl, rfl, rfl, rfl, rfl⟩
  cases v with
  | str s => simp [PyValue.isPrim] at hnp
  | int n => simp [PyValue.isPrim] at hnp
  | bool b => simp [PyValue.isPrim] at hnp
  | pynone => exact absurd rfl hnn
  | dataclass c f => simp [userAttrs, encodedAttrs, nullNames]
  | pylist l => simp [userAttrs, encodedAttrs, nullNames]

/-- Witness for the amended C8 at the dataclass value `Foo(1, 2)`. -/
theorem json_attr_tagged_encoding_witness :
    userAttrs [("foo", fooValue)] =
      [("foo" ++ "__JSON", .str (renderJson (jsonEncode fooValue)))] ∧
    jsonEncode (.dataclass "Foo" (.cons "x" (.int 1) (.cons "y" (.int 2) .nil))) =
      .obj (.cons "$__datatype__" (.str "dataclass")
        (.cons "data" (.obj (jsonEncodeFields (.cons "x" (.int 1) (.cons "y" (.int 2) .nil))))
          (.cons "cls" (.str "Foo") .nil))) ∧
    Json.isObj (jsonEncode (.dataclass "Foo" (.cons "x" (.int 1) (.cons "y" (.int 2) .nil)))) = true ∧
    Json.isArr (jsonEncode (.pylist (.cons fooValue .nil))) = true ∧
    (logCall Handle.default "info" "test message {foo=}" [("foo", fooValue)] initState).map
        (fun s => s.records.map fun r => (r.name, attrGet "foo__JSON" r.attributes)) =
      .ok [("test message foo=Foo(x=1, y=2)",
        some (.str "\x7b\"$__datatype__\":\"dataclass\",\"data\":\x7b\"x\":1,\"y\":2\x7d,\"cls\":\"Foo\"\x7d"))] ∧
    (logCall Handle.default "info" "test message {foos=}" [("foos", foosValue)] initState).map
        (fun s => s.records.map fun r => (r.name, attrGet "foos__JSON" r.attributes)) =
      .ok [("test message foos=[Foo(x=1, y=2)]",
        some (.str "[\x7b\"$__datatype__\":\"dataclass\",\"data\":\x7b\"x\":1,\"y\":2\x7d,\"cls\":\"Foo\"\x7d]"))] :=
  json_attr_tagged_encoding "foo" "Foo" (.cons "x" (.int 1) (.cons "y" (.int 2) .nil))
    (.cons fooValue .nil) fooValue rfl (by decide)

/-! ## C9 -/

mutual
/-- Serialized stacks pair up with the cause chain outer to inner, every
output frame has a null locals field and only the static projection of a
live frame, and only the head entry is marked as not being a cause. -/
theorem buildStacks_props (b : Bool) (e : PyExc) :
    (∀ s ∈ buildStacks b e, ∀ f ∈ s.frames, f.outLocals = Option.none) ∧
    List.Forall₂ TracePaired (buildStacks b e) (causeChain e) ∧
    (buildStacks b e).map StackInfo.isCause =
      b :: List.replicate ((buildStacks b e).length - 1) true := by
  cases e with
  | mk t v s fs c =>
      obtain ⟨hloc, hpair, hmap⟩ := buildStacksCause_props c
      refine ⟨?_, ?_, ?_⟩
      · intro si hsi f hf
        rcases List.mem_cons.1 hsi with h | h
        · rw [h] at hf
          rcases List.mem_map.1 hf with ⟨raw, _, hfr⟩
          rw [← hfr]
          rfl
        · exact hloc si h f hf
      · exact List.Forall₂.cons ⟨rfl, rfl, rfl⟩ hpair
      · show StackInfo.isCause _ :: (buildStacksCause c).map StackInfo.isCause = _
        rw [hmap]
        simp [buildStacks]
theorem buildStacksCause_props (c : CauseLink) :
    (∀ s ∈ buildStacksCause c, ∀ f ∈ s.frames, f.outLocals = Option.none) ∧
    List.Forall₂ TracePaired (buildStacksCause c) (causeChainLink c) ∧
    (buildStacksCause c).map StackInfo.isCause =
      List.replicate (buildStacksCause c).length true := by
  cases c with
  | noCause =>
      refine ⟨?_, List.Forall₂.nil, rfl⟩
      intro s hs
      cases hs
  | causedBy e =>
      obtain ⟨hloc, hpair, hmap⟩ := buildStacks_props true e
      refine ⟨hloc, hpair, ?_⟩
      cases e with
      | mk t v s fs c2 =>
          show List.map StackInfo.isCause (buildStacks true (PyExc.mk t v s fs c2)) =
            List.replicate (buildStacks true (PyExc.mk t v s fs c2)).length true
          rw [hmap]
          simp [buildStacks, List.replicate_succ]
end

/-- C9: in the `exception.logfire.trace` payload the stacks walk the
cause chain of the error outer to inner (the head entry is the error
itself and each following entry is a cause), and every frame of every
stack carries only the static source location of the corresponding live
frame, with its locals field always null: no runtime values leak. -/
theorem exception_trace_static_frames (e : PyExc) :
    (∀ s ∈ exceptionTrace e, ∀ f ∈ s.frames, f.outLocals = Option.none) ∧
    List.Forall₂ TracePaired (exceptionTrace e) (causeChain e) ∧
    (exceptionTrace e).map StackInfo.isCause =
      false :: List.replicate ((exceptionTrace e).length - 1) true :=
  buildStacks_props false e

end Logfire
